import Mathlib

/-!
Verification of the bencher snapshot-compare-promote pipeline from
orijtech/opencensus-tools. The definitions below are a shallow embedding
of the Go sources: the bencher package implementation (runGoBenchmarks,
Request, Benchmark, BenchmarkAndEmail, uploadToGCS, uploadBenchmarksToGCS,
definition, Result) together with its line-for-line parallel in
src/bencher/main.go (runGoBenchmarks, benchmarkIt, handleBenchmarkPing).
External collaborators -- the go test subprocess, the benchstat
comparator, the infra blob store, the email template and the postmark
mailer -- are modelled as oracles carried by an Env record; every byte
level operation performed by the source itself (line splitting, trimming,
prefix filtering, joining, object key construction, row filtering) is
translated directly from the Go code.
-/

namespace Bencher

/-- Go byte slices and strings are modelled as Lean strings, with the
byte level operations of the source translated over the underlying
character list. goSplit sep s is strings.Split with a one character
separator: it never returns an empty list, and splitting the empty
string yields a single empty piece, exactly as in Go. -/
def goSplit (sep : Char) : List Char → List (List Char)
  | [] => [[]]
  | c :: rest =>
    match goSplit sep rest with
    | [] => [[c]]
    | h :: t => if c = sep then [] :: h :: t else (c :: h) :: t

/-- unicode.IsSpace restricted to the Latin-1 range, which covers every
byte the go test benchmark output can contain on the whitespace side. -/
def isGoSpace (c : Char) : Bool :=
  c = '\t' || c = '\n' || c = '\u000B' || c = '\u000C' || c = '\r' ||
  c = ' ' || c = '\u0085' || c = '\u00A0'

/-- strings.TrimSpace: drop leading and trailing whitespace. -/
def trimSpace (s : List Char) : List Char :=
  ((s.dropWhile isGoSpace).reverse.dropWhile isGoSpace).reverse

/-- The error values the pipeline can return. cmdFailed stands for any
error coming out of cmd.Output, noBenchmarks is ErrNoBenchmarks,
noChanges is ErrNoChanges; the remaining constructors stand for the
distinct fmt.Errorf wrappings and the email failures of the source. -/
inductive PErr where
  | cmdFailed
  | noBenchmarks
  | firstTimeUploadFailed
  | retrieveBeforeFailed
  | downloadBeforeFailed
  | noChanges
  | uploadFailed (path : String)
  | emailTmplFailed
  | sendEmailFailed
deriving DecidableEq

/-- The MeasurementFailure class of the specification error taxonomy:
the runner produced no recognizable measurement lines, or the runner
itself failed. These are exactly the two error values the measurement
stage of the source can produce. -/
def isMeasurementFailure : PErr → Bool
  | PErr.cmdFailed => true
  | PErr.noBenchmarks => true
  | _ => false

/-- The line filter inside runGoBenchmarks: split the runner output on
newlines, trim each line, keep the lines that start with Benchmark. -/
def benchmarkLinesOf (output : String) : List (List Char) :=
  ((goSplit '\n' output.data).map trimSpace).filter
    (fun l => List.isPrefixOf ("Benchmark".data) l)

/-- runGoBenchmarks. The subprocess is an external collaborator: its
outcome is an oracle value, error for any cmd.Output failure and ok for
the raw standard output bytes. The source then keeps only the trimmed
lines starting with Benchmark, fails with ErrNoBenchmarks when none
remain, and rejoins the survivors with newline separators. -/
def runGoBenchmarks (cmdOutput : Except Unit String) : Except PErr String :=
  match cmdOutput with
  | Except.error _ => Except.error PErr.cmdFailed
  | Except.ok output =>
    let bls := benchmarkLinesOf output
    if bls.isEmpty then Except.error PErr.noBenchmarks
    else Except.ok (String.mk (List.intercalate ['\n'] bls))

/-- Go: const unchanged = int(0). -/
def unchanged : Int := 0

/-- benchstat.Row, restricted to the fields the pipeline reads. -/
structure Row where
  Benchmark : String
  Change : Int
deriving DecidableEq

/-- benchstat.Table, restricted to the fields the pipeline reads. -/
structure Table where
  Metric : String
  Rows : List Row
deriving DecidableEq

/-- The delta test selected in the benchstat configuration. UTest is
the two sample nonparametric Mann-Whitney U test. -/
inductive DeltaTest where
  | UTest
  | TTest
  | NoDeltaTest
deriving DecidableEq

/-- benchstat.Collection: the comparator configuration built by the
pipeline plus the named measurement sets added with AddConfig. -/
structure Collection where
  Alpha : ℚ
  AddGeoMean : Bool
  DeltaTest : DeltaTest
  SplitBy : List String
  Configs : List (String × String)

/-- benchstat Collection.AddConfig: append one named measurement set. -/
def Collection.AddConfig (c : Collection) (name : String) (data : String) :
    Collection :=
  { c with Configs := c.Configs ++ [(name, data)] }

/-- The collection literal built inside uploadToGCS, followed by the two
AddConfig calls, exactly as in the source: Alpha 0.05, AddGeoMean false,
DeltaTest UTest, SplitBy pkg, goos, goarch; then before and after. -/
def mkCollection (beforeBytes afterBytes : String) : Collection :=
  (({ Alpha := 0.05, AddGeoMean := false, DeltaTest := DeltaTest.UTest,
      SplitBy := [("pkg"), ("goos"), ("goarch")], Configs := [] } :
      Collection).AddConfig ("before") beforeBytes).AddConfig
    ("after") afterBytes

/-- The post filter loop of the source: for each table keep the rows
whose Change differs from the unchanged sentinel, skip the table when no
row remains, otherwise swap in the filtered rows. -/
def filterChanged : List Table → List Table
  | [] => []
  | table :: rest =>
    let rows := table.Rows.filter (fun row => row.Change != unchanged)
    if rows.isEmpty then filterChanged rest
    else { table with Rows := rows } :: filterChanged rest

/-- One table with its statistically unchanged rows removed. -/
def dropUnchangedRows (t : Table) : Table :=
  { t with Rows := t.Rows.filter (fun row => row.Change != unchanged) }

/-- The bencher Request (the fields the pipeline reads; the infra client
handle is modelled by the Env oracle record instead). -/
structure Request where
  AppEmail : String
  AppSecret : String
  GCSBucket : String
  GCSProject : String
  GitRepoURL : String
  AlertEmails : List String
  Secret : String
  Public : Bool
  EmailServerToken : String
  EmailAccountToken : String
deriving DecidableEq

/-- The Result value returned by the pipeline (Go map URLs modelled as
an association list in insertion order). -/
structure Result where
  URLs : List (String × String)
  Benchmarks : String
  HTMLBenchmarks : String
deriving DecidableEq

/-- postmark.Email, restricted to the fields the source sets. -/
structure Email where
  From : String
  To : String
  Subject : String
  HtmlBody : String
deriving DecidableEq

/-- The definition struct handed to uploadBenchmarksToGCS. The Reader
closure is replaced by the bytes it yields, which is faithful because
each reader built by the source yields the same bytes on every call. -/
structure definition where
  Name : String
  GCSProject : String
  Bucket : String
  content : String
  Public : Bool
deriving DecidableEq

/-- Result of infraClient.Object on the latest key: an error, a nil
object, or a found object. The source merges the first two cases. -/
inductive ObjectRes where
  | errRes
  | nilObj
  | found
deriving DecidableEq

/-- Result of infraClient.Download plus io.Copy for the latest key:
failure at the Download call, failure during the copy, or the retrieved
baseline bytes. -/
inductive DownloadRes where
  | retrieveErr
  | copyErr
  | ok (contents : String)
deriving DecidableEq

/-- The external collaborators of one invocation, as oracles: the
subprocess output, the time derived unique key fragment (Go variable
nowUniqPrefix), the existence check, the baseline download, the
benchstat table computation, the blob store upload (some url on
success), the two benchstat formatters, the email template rendering
and the postmark send. -/
structure Env where
  cmdOutput : Except Unit String
  nowUniq : String
  objectRes : ObjectRes
  downloadRes : DownloadRes
  tablesOf : Collection → List Table
  uploadRes : definition → Option String
  formatText : List Table → String
  formatHTML : List Table → String
  renderEmail : Result → Except Unit String
  sendEmail : Email → Bool

/-- Go: inBenchmarksDir, the object key naming policy. -/
def inBenchmarksDir (gitRepoURL suffix : String) : String :=
  gitRepoURL ++ ("/benchmarks/") ++ suffix

/-- The definition value the pipeline builds for one upload. -/
def uploadDef (br : Request) (path content : String) : definition :=
  { Name := inBenchmarksDir br.GitRepoURL path, GCSProject := br.GCSProject,
    Bucket := br.GCSBucket, content := content, Public := br.Public }

/-- The upload loops of the source: attempt each (path, content) job in
order through uploadBenchmarksToGCS, abort on the first failure with the
failing path, otherwise collect (path, url) pairs. The second component
is the log of upload invocations actually performed. -/
def uploadAll (up : definition → Option String)
    (mk : String → String → definition) :
    List (String × String) →
      Except String (List (String × String)) × List definition
  | [] => (Except.ok [], [])
  | (path, content) :: rest =>
    let d := mk path content
    match up d with
    | none => (Except.error path, [d])
    | some url =>
      match uploadAll up mk rest with
      | (Except.error p, log) => (Except.error p, d :: log)
      | (Except.ok urls, log) => (Except.ok ((path, url) :: urls), d :: log)

/-- uploadToGCS, the core of the pipeline, translated branch for branch
from the source. The first match models the condition err not nil or
obj nil on the existence check; the first time branch uploads the after
bytes under latest and the timestamped key; otherwise the baseline is
downloaded, the benchstat collection is built and its tables are post
filtered; an empty filtered set returns ErrNoChanges with no upload;
otherwise the four uploads run in order raw latest, raw timestamped,
results latest, results timestamped, and the Result carries the url
map, the text report and the html report. -/
def uploadToGCS (env : Env) (br : Request) (afterBlob : String) :
    Except PErr Result × List definition :=
  match env.objectRes with
  | ObjectRes.errRes =>
    match uploadAll env.uploadRes (uploadDef br)
        [(("latest"), afterBlob), (env.nowUniq, afterBlob)] with
    | (Except.error _, log) => (Except.error PErr.firstTimeUploadFailed, log)
    | (Except.ok urls, log) =>
      (Except.ok { URLs := urls, Benchmarks := afterBlob, HTMLBenchmarks := "" }, log)
  | ObjectRes.nilObj =>
    match uploadAll env.uploadRes (uploadDef br)
        [(("latest"), afterBlob), (env.nowUniq, afterBlob)] with
    | (Except.error _, log) => (Except.error PErr.firstTimeUploadFailed, log)
    | (Except.ok urls, log) =>
      (Except.ok { URLs := urls, Benchmarks := afterBlob, HTMLBenchmarks := "" }, log)
  | ObjectRes.found =>
    match env.downloadRes with
    | DownloadRes.retrieveErr => (Except.error PErr.retrieveBeforeFailed, [])
    | DownloadRes.copyErr => (Except.error PErr.downloadBeforeFailed, [])
    | DownloadRes.ok beforeBytes =>
      let changed := filterChanged
        (env.tablesOf (mkCollection beforeBytes afterBlob))
      if changed.isEmpty then (Except.error PErr.noChanges, [])
      else
        let resultsText := env.formatText changed
        match uploadAll env.uploadRes (uploadDef br)
            [(("latest"), afterBlob), (env.nowUniq, afterBlob),
             (("latest-results"), resultsText),
             (env.nowUniq ++ ("-results"), resultsText)] with
        | (Except.error p, log) => (Except.error (PErr.uploadFailed p), log)
        | (Except.ok urls, log) =>
          (Except.ok { URLs := urls, Benchmarks := resultsText, HTMLBenchmarks := env.formatHTML changed }, log)

/-- Request.Benchmark: run the benchmarks, then hand the after bytes to
uploadToGCS; a runner failure aborts before any storage interaction. -/
def Benchmark (env : Env) (br : Request) :
    Except PErr Result × List definition :=
  match runGoBenchmarks env.cmdOutput with
  | Except.error e => (Except.error e, [])
  | Except.ok afterBlob => uploadToGCS env br afterBlob

/-- Request.BenchmarkAndEmail: run the pipeline, render the email
template over the results, send the email to the joined alert list. A
send failure is reported as an error (the Go code returns the results
value alongside that error; the error outcome is what callers branch
on, so the model keeps the error). -/
def BenchmarkAndEmail (env : Env) (br : Request) :
    Except PErr Result × List definition :=
  match Benchmark env br with
  | (Except.error e, log) => (Except.error e, log)
  | (Except.ok results, log) =>
    match env.renderEmail results with
    | Except.error _ => (Except.error PErr.emailTmplFailed, log)
    | Except.ok htmlBody =>
      let email : Email :=
        { From := br.AppEmail,
          To := String.intercalate (",") br.AlertEmails,
          Subject := ("Benchmarks for ") ++ br.GitRepoURL,
          HtmlBody := htmlBody }
      if env.sendEmail email then (Except.ok results, log)
      else (Except.error PErr.sendEmailFailed, log)

/-- The three way response switch of the HTTP handlers: the ErrNoChanges
comparison comes first and yields the plain no changes message with a
success status; any other error yields a bad request response; a nil
error yields the JSON encoded results. -/
inductive HttpOutcome where
  | noChangesMessage
  | badRequest (e : PErr)
  | okJSON (r : Result)
deriving DecidableEq

/-- The outcome dispatch performed by handleBenchmarkPing and
handleBenchmarking over the pipeline return value. -/
def handleOutcome (out : Except PErr Result) : HttpOutcome :=
  match out with
  | Except.error PErr.noChanges => HttpOutcome.noChangesMessage
  | Except.error e => HttpOutcome.badRequest e
  | Except.ok r => HttpOutcome.okJSON r

/-- The effect of a sequence of performed uploads on the blob store,
viewed as a map from object names to contents: later writes to the same
name win, names never written keep their previous contents. -/
def applyWrites (store : String → Option String) (log : List definition) :
    String → Option String :=
  List.foldl (fun s d => fun k => if k = d.Name then some d.content else s k)
    store log


/-- A concrete request used to evaluate the pipeline on closed inputs. -/
def brW : Request :=
  { AppEmail := "bench@example.org", AppSecret := "", GCSBucket := "census-demos",
    GCSProject := "census-demos", GitRepoURL := "go.opencensus.io/exporter",
    AlertEmails := ["a@example.org"], Secret := "", Public := true,
    EmailServerToken := "", EmailAccountToken := "" }

/-- A concrete collaborator environment: existing baseline, successful
download, a comparator returning no tables, successful uploads. -/
def envBase : Env :=
  { cmdOutput := Except.ok ("BenchmarkFoo-8   1000000    120 ns/op\n"),
    nowUniq := "2018-1-2/1514883600",
    objectRes := ObjectRes.found,
    downloadRes := DownloadRes.ok ("BenchmarkFoo-8 120 ns/op"),
    tablesOf := fun _ => [],
    uploadRes := fun _ => some ("https://storage.example.org/u"),
    formatText := fun _ => "text-report",
    formatHTML := fun _ => "html-report",
    renderEmail := fun _ => Except.ok "email-body",
    sendEmail := fun _ => true }

/-- Environment whose comparator reports one significantly changed row. -/
def envC1 : Env :=
  { envBase with tablesOf := fun _ =>
      [{ Metric := "ns/op",
         Rows := [{ Benchmark := "BenchmarkFoo-8", Change := 1 }] }] }

/-- Environment with no stored baseline (nil object, no error). -/
def envC3 : Env := { envBase with objectRes := ObjectRes.nilObj }

/-- Environment whose runner output contains no benchmark lines. -/
def envC5 : Env :=
  { envBase with cmdOutput := Except.ok ("PASS\nok  pkg 1.2s\n") }

/-- Environment whose baseline equals the after bytes and whose
comparator reports only sentinel rows. -/
def envC6 : Env :=
  { envBase with
    downloadRes := DownloadRes.ok ("A"),
    tablesOf := fun _ =>
      [{ Metric := "ns/op",
         Rows := [{ Benchmark := "BenchmarkFoo-8", Change := 0 }] }] }

/-- Environment for the first time concrete scenario of the spec. -/
def envC7 : Env := { envBase with objectRes := ObjectRes.nilObj }

/-- Environment whose existence check fails with a storage error. -/
def envC10 : Env := { envBase with objectRes := ObjectRes.errRes }

/-- The first time result value of the concrete scenario of claim C7. -/
def resC7 : Result :=
  { URLs := [("latest", "https://storage.example.org/u"),
      ("2018-1-2/1514883600", "https://storage.example.org/u")],
    Benchmarks := "BenchmarkFoo-8   1000000    120 ns/op",
    HTMLBenchmarks := "" }

/-- Every element of a filtered list satisfies the filtering predicate. -/
theorem all_filter_self (p : Row → Bool) (l : List Row) :
    (l.filter p).all p = true := by
  induction l with
  | nil => rfl
  | cons a l ih =>
    by_cases h : p a <;> simp [List.filter_cons, h, ih]

/-- When every upload succeeds, the upload loop returns a url for every
job and performs exactly one upload per job, in job order. -/
theorem uploadAll_success (up : definition → Option String)
    (mk : String → String → definition) (h : ∀ d, (up d).isSome) :
    ∀ jobs : List (String × String), ∃ urls,
      uploadAll up mk jobs = (Except.ok urls, jobs.map (fun j => mk j.1 j.2))
  | [] => ⟨[], rfl⟩
  | (path, content) :: rest => by
    obtain ⟨urls, ih⟩ := uploadAll_success up mk h rest
    obtain ⟨url, hu⟩ := Option.isSome_iff_exists.mp (h (mk path content))
    refine ⟨(path, url) :: urls, ?_⟩
    simp [uploadAll, hu, ih]

/-- The post filter loop is dropping sentinel rows inside each table and
then dropping the emptied tables, keeping the native order. -/
theorem filterChanged_eq (ts : List Table) :
    filterChanged ts = (ts.map dropUnchangedRows).filter
      (fun t => !t.Rows.isEmpty) := by
  induction ts with
  | nil => rfl
  | cons t rest ih =>
    simp only [filterChanged, dropUnchangedRows, List.map_cons, List.filter_cons]
    by_cases hrows : (t.Rows.filter (fun row => row.Change != unchanged)).isEmpty
    · simp [hrows, ih]
    · simp [hrows, ih]

/-- Every table surviving the post filter has at least one row, and none
of its rows carries the unchanged sentinel. -/
theorem filterChanged_all (ts : List Table) :
    (filterChanged ts).all
      (fun t => !t.Rows.isEmpty &&
        t.Rows.all (fun row => row.Change != unchanged)) = true := by
  induction ts with
  | nil => rfl
  | cons t rest ih =>
    simp only [filterChanged]
    by_cases hrows : (t.Rows.filter (fun row => row.Change != unchanged)).isEmpty = true
    · simp [hrows, ih]
    · rw [if_neg hrows]
      simp only [List.all_cons, Bool.and_eq_true]
      constructor
      · simp only [Bool.not_eq_true] at hrows
        simp [hrows, all_filter_self]
      · exact ih

/-- If every row of every table carries the unchanged sentinel, the post
filter leaves nothing. -/
theorem filterChanged_eq_nil_of_unchanged (ts : List Table)
    (h : ts.all (fun t => t.Rows.all (fun row => row.Change == unchanged)) = true) :
    filterChanged ts = [] := by
  induction ts with
  | nil => rfl
  | cons t rest ih =>
    simp only [List.all_cons, Bool.and_eq_true] at h
    have hrows : t.Rows.filter (fun row => row.Change != unchanged) = [] := by
      apply List.filter_eq_nil_iff.mpr
      intro row hrow
      have := (List.all_eq_true.mp h.1) row hrow
      simp at this ⊢
      exact this
    simp only [filterChanged, hrows]
    simpa using ih h.2

/-- String concatenation with a fixed left part is injective. -/
theorem string_append_left_cancel (a b c : String) (h : a ++ b = a ++ c) :
    b = c := by
  have hd : (a ++ b).data = (a ++ c).data := by rw [h]
  have h2 : a.data ++ b.data = a.data ++ c.data := by
    cases a
    cases b
    cases c
    simpa [String.append] using hd
  have h3 : b.data = c.data := List.append_cancel_left h2
  cases b
  cases c
  exact congrArg String.mk h3

/-- Claim C1: for every (before, after) pair for which the post filtered
comparison yields at least one non empty table, one pipeline invocation
writes exactly four snapshots -- the raw after measurements under the
latest key and under the timestamped key, and the formatted report under
the latest-results key and the timestamped results key -- in the order
raw latest, raw timestamped, results latest, results timestamped, and
the invocation returns a success result. -/
theorem claim_C1 (env : Env) (br : Request) (afterBlob beforeBytes : String)
    (h1 : env.objectRes = ObjectRes.found)
    (h2 : env.downloadRes = DownloadRes.ok beforeBytes)
    (h3 : filterChanged (env.tablesOf (mkCollection beforeBytes afterBlob)) ≠ [])
    (h4 : ∀ d, (env.uploadRes d).isSome) :
    (∃ r : Result, (uploadToGCS env br afterBlob).1 = Except.ok r) ∧
    (uploadToGCS env br afterBlob).2 =
      [ uploadDef br ("latest") afterBlob,
        uploadDef br env.nowUniq afterBlob,
        uploadDef br ("latest-results")
          (env.formatText (filterChanged
            (env.tablesOf (mkCollection beforeBytes afterBlob)))),
        uploadDef br (env.nowUniq ++ ("-results"))
          (env.formatText (filterChanged
            (env.tablesOf (mkCollection beforeBytes afterBlob)))) ] := by
  obtain ⟨co, nu, obj, dl, tab, up, ft, fh, re, se⟩ := env
  simp only at h1 h2 h3 h4 ⊢
  subst h1
  subst h2
  have hne : ¬((filterChanged (tab (mkCollection beforeBytes afterBlob))).isEmpty = true) := by
    cases hch : filterChanged (tab (mkCollection beforeBytes afterBlob)) with
    | nil => exact absurd hch h3
    | cons a l => simp
  obtain ⟨urls, hub⟩ := uploadAll_success up (uploadDef br) h4
    [(("latest"), afterBlob), (nu, afterBlob),
     (("latest-results"), ft (filterChanged (tab (mkCollection beforeBytes afterBlob)))),
     (nu ++ ("-results"), ft (filterChanged (tab (mkCollection beforeBytes afterBlob))))]
  simp only [uploadToGCS]
  rw [if_neg hne, hub]
  exact ⟨⟨_, rfl⟩, rfl⟩

/-- Witness for claim C1 at a concrete environment whose comparator
reports one changed row and whose uploads all succeed. -/
theorem claim_C1_witness :
    (∃ r : Result, (uploadToGCS envC1 brW ("after-bytes")).1 = Except.ok r) ∧
    (uploadToGCS envC1 brW ("after-bytes")).2 =
      [ uploadDef brW ("latest") ("after-bytes"),
        uploadDef brW envC1.nowUniq ("after-bytes"),
        uploadDef brW ("latest-results")
          (envC1.formatText (filterChanged
            (envC1.tablesOf (mkCollection ("BenchmarkFoo-8 120 ns/op") ("after-bytes"))))),
        uploadDef brW (envC1.nowUniq ++ ("-results"))
          (envC1.formatText (filterChanged
            (envC1.tablesOf (mkCollection ("BenchmarkFoo-8 120 ns/op") ("after-bytes"))))) ] :=
  claim_C1 envC1 brW ("after-bytes") ("BenchmarkFoo-8 120 ns/op") rfl rfl
    (by decide) (fun _ => rfl)

/-- Claim C2: for every (before, after) pair for which the post filtered
comparison yields zero non empty tables, the invocation returns the
ErrNoChanges terminal outcome, which the HTTP dispatch maps to the plain
no changes message rather than an error response, and it performs zero
snapshot writes, so the stored baseline is unchanged. -/
theorem claim_C2 (env : Env) (br : Request) (afterBlob beforeBytes : String)
    (h1 : env.objectRes = ObjectRes.found)
    (h2 : env.downloadRes = DownloadRes.ok beforeBytes)
    (h3 : filterChanged (env.tablesOf (mkCollection beforeBytes afterBlob)) = []) :
    uploadToGCS env br afterBlob = (Except.error PErr.noChanges, []) ∧
    handleOutcome (uploadToGCS env br afterBlob).1 =
      HttpOutcome.noChangesMessage ∧
    ∀ store : String → Option String,
      applyWrites store (uploadToGCS env br afterBlob).2 = store := by
  obtain ⟨co, nu, obj, dl, tab, up, ft, fh, re, se⟩ := env
  simp only at h1 h2 h3
  subst h1
  subst h2
  have he : uploadToGCS
      ⟨co, nu, ObjectRes.found, DownloadRes.ok beforeBytes, tab, up, ft, fh, re, se⟩
      br afterBlob = (Except.error PErr.noChanges, []) := by
    simp only [uploadToGCS]
    rw [h3]
    rfl
  refine ⟨he, ?_, ?_⟩
  · rw [he]
    rfl
  · intro store
    rw [he]
    rfl

/-- Witness for claim C2 at a concrete environment whose comparator
returns no tables. -/
theorem claim_C2_witness :
    uploadToGCS envBase brW ("after-bytes") = (Except.error PErr.noChanges, []) ∧
    handleOutcome (uploadToGCS envBase brW ("after-bytes")).1 =
      HttpOutcome.noChangesMessage ∧
    ∀ store : String → Option String,
      applyWrites store (uploadToGCS envBase brW ("after-bytes")).2 = store :=
  claim_C2 envBase brW ("after-bytes") ("BenchmarkFoo-8 120 ns/op") rfl rfl rfl

/-- Claim C3: for every repository whose latest raw measurement key does
not exist (nil object from the existence check), one invocation writes
exactly two raw snapshots, under latest and under the timestamped key,
returns a first time result whose report body is the raw measurement
text with an empty rich text part, and the outcome is independent of the
comparator and download collaborators, for any after bytes. -/
theorem claim_C3 (env : Env) (br : Request) (afterBlob : String)
    (h1 : env.objectRes = ObjectRes.nilObj)
    (h4 : ∀ d, (env.uploadRes d).isSome) :
    (∃ r : Result, (uploadToGCS env br afterBlob).1 = Except.ok r ∧
      r.Benchmarks = afterBlob ∧ r.HTMLBenchmarks = "") ∧
    (uploadToGCS env br afterBlob).2 =
      [ uploadDef br ("latest") afterBlob,
        uploadDef br env.nowUniq afterBlob ] ∧
    ∀ f g, uploadToGCS { env with tablesOf := f, downloadRes := g } br afterBlob =
      uploadToGCS env br afterBlob := by
  obtain ⟨co, nu, obj, dl, tab, up, ft, fh, re, se⟩ := env
  simp only at h1 h4 ⊢
  subst h1
  obtain ⟨urls, hub⟩ := uploadAll_success up (uploadDef br) h4
    [(("latest"), afterBlob), (nu, afterBlob)]
  simp only [uploadToGCS]
  rw [hub]
  refine ⟨⟨_, rfl, rfl, rfl⟩, rfl, ?_⟩
  intro f g
  trivial

/-- Witness for claim C3 at a concrete environment with a nil object
from the existence check and successful uploads. -/
theorem claim_C3_witness :
    (∃ r : Result, (uploadToGCS envC3 brW ("first-bytes")).1 = Except.ok r ∧
      r.Benchmarks = ("first-bytes") ∧ r.HTMLBenchmarks = "") ∧
    (uploadToGCS envC3 brW ("first-bytes")).2 =
      [ uploadDef brW ("latest") ("first-bytes"),
        uploadDef brW envC3.nowUniq ("first-bytes") ] ∧
    ∀ f g, uploadToGCS { envC3 with tablesOf := f, downloadRes := g } brW ("first-bytes") =
      uploadToGCS envC3 brW ("first-bytes") :=
  claim_C3 envC3 brW ("first-bytes") rfl (fun _ => rfl)

/-- Claim C4: the pipeline configures the comparator with significance
threshold 0.05, no geometric mean synthetic row, grouping dimensions
pkg, goos and goarch, the two sample nonparametric Mann-Whitney U test,
and the before and after measurement sets in that order; the post filter
equals dropping sentinel rows in each table and then dropping emptied
tables, which keeps the native table and row order, and every surviving
table is non empty with no sentinel row. -/
theorem claim_C4 (beforeBytes afterBytes : String) (ts : List Table) :
    (mkCollection beforeBytes afterBytes).Alpha = 0.05 ∧
    (mkCollection beforeBytes afterBytes).AddGeoMean = false ∧
    (mkCollection beforeBytes afterBytes).DeltaTest = DeltaTest.UTest ∧
    (mkCollection beforeBytes afterBytes).SplitBy =
      [("pkg"), ("goos"), ("goarch")] ∧
    (mkCollection beforeBytes afterBytes).Configs =
      [(("before"), beforeBytes), (("after"), afterBytes)] ∧
    filterChanged ts =
      (ts.map dropUnchangedRows).filter (fun t => !t.Rows.isEmpty) ∧
    (filterChanged ts).all (fun t => !t.Rows.isEmpty &&
      t.Rows.all (fun row => row.Change != unchanged)) = true :=
  ⟨rfl, rfl, rfl, rfl, rfl, filterChanged_eq ts, filterChanged_all ts⟩

/-- Claim C5: for every runner outcome with zero recognizable measurement
lines, and for every runner failure, the pipeline fails with an error of
the MeasurementFailure class and performs zero storage writes. -/
theorem claim_C5 (env : Env) (br : Request)
    (h : env.cmdOutput = Except.error () ∨
      ∃ out, env.cmdOutput = Except.ok out ∧ benchmarkLinesOf out = []) :
    ∃ e, Benchmark env br = (Except.error e, []) ∧
      isMeasurementFailure e = true := by
  rcases h with hfail | ⟨out, hok, hnone⟩
  · exact ⟨PErr.cmdFailed, by simp [Benchmark, runGoBenchmarks, hfail], rfl⟩
  · refine ⟨PErr.noBenchmarks, ?_, rfl⟩
    simp [Benchmark, runGoBenchmarks, hok, hnone]

/-- Witness for claim C5 at a concrete runner output that contains no
line starting with Benchmark. -/
theorem claim_C5_witness :
    benchmarkLinesOf ("PASS\nok  pkg 1.2s\n") = [] ∧
    ∃ e, Benchmark envC5 brW = (Except.error e, []) ∧
      isMeasurementFailure e = true :=
  ⟨by decide, claim_C5 envC5 brW
    (Or.inr ⟨("PASS\nok  pkg 1.2s\n"), rfl, by decide⟩)⟩

/-- Claim C6: idempotence of the changed path. When the stored baseline
equals the after bytes (as after a run that advanced it) and the
comparator marks every row of the diagonal comparison with the unchanged
sentinel, the run returns the ErrNoChanges terminal outcome with zero
writes, and the HTTP dispatch maps it to the no changes message. -/
theorem claim_C6 (env : Env) (br : Request) (afterBlob : String)
    (h1 : env.objectRes = ObjectRes.found)
    (h2 : env.downloadRes = DownloadRes.ok afterBlob)
    (hcomp : (env.tablesOf (mkCollection afterBlob afterBlob)).all
      (fun t => t.Rows.all (fun row => row.Change == unchanged)) = true) :
    uploadToGCS env br afterBlob = (Except.error PErr.noChanges, []) ∧
    handleOutcome (uploadToGCS env br afterBlob).1 =
      HttpOutcome.noChangesMessage := by
  have h3 := filterChanged_eq_nil_of_unchanged _ hcomp
  obtain ⟨co, nu, obj, dl, tab, up, ft, fh, re, se⟩ := env
  simp only at h1 h2 h3
  subst h1
  subst h2
  have he : uploadToGCS
      ⟨co, nu, ObjectRes.found, DownloadRes.ok afterBlob, tab, up, ft, fh, re, se⟩
      br afterBlob = (Except.error PErr.noChanges, []) := by
    simp only [uploadToGCS]
    rw [h3]
    rfl
  refine ⟨he, ?_⟩
  rw [he]
  rfl

/-- Witness for claim C6 at a concrete environment whose baseline equals
the after bytes and whose comparator reports one sentinel row. -/
theorem claim_C6_witness :
    uploadToGCS envC6 brW ("A") = (Except.error PErr.noChanges, []) ∧
    handleOutcome (uploadToGCS envC6 brW ("A")).1 =
      HttpOutcome.noChangesMessage :=
  claim_C6 envC6 brW ("A") rfl rfl (by decide)

/-- Claim C7, counterexample to the claim as stated: with an absent
baseline and runner output BenchmarkFoo-8   1000000    120 ns/op plus a
trailing newline, neither written snapshot contains that exact byte
content: the line filter drops the trailing newline, so both writes
carry the line without it, which differs from the claimed bytes. -/
theorem claim_C7_counterexample :
    (Benchmark envC7 brW).2.map definition.content =
      [("BenchmarkFoo-8   1000000    120 ns/op"),
       ("BenchmarkFoo-8   1000000    120 ns/op")] ∧
    ((Benchmark envC7 brW).2.all
      (fun d => d.content != ("BenchmarkFoo-8   1000000    120 ns/op\n"))) = true ∧
    ("BenchmarkFoo-8   1000000    120 ns/op") ≠
      ("BenchmarkFoo-8   1000000    120 ns/op\n") :=
  ⟨rfl, rfl, by decide⟩

/-- Claim C7 as amended: in the first time concrete scenario the
pipeline writes the latest key and the timestamped key, both containing
the measurement line with its inner spacing preserved but without the
trailing newline, and returns a first time result whose report body is
that same text. -/
theorem claim_C7 :
    (∃ r : Result, (Benchmark envC7 brW).1 = Except.ok r ∧
      r.Benchmarks = ("BenchmarkFoo-8   1000000    120 ns/op") ∧
      r.HTMLBenchmarks = "") ∧
    (Benchmark envC7 brW).2 =
      [ uploadDef brW ("latest") ("BenchmarkFoo-8   1000000    120 ns/op"),
        uploadDef brW ("2018-1-2/1514883600")
          ("BenchmarkFoo-8   1000000    120 ns/op") ] :=
  ⟨⟨resC7, rfl, rfl, rfl⟩, rfl⟩

/-- Claim C9: noninterference of the shared secret field. Two requests
that differ only in the Secret value produce identical pipeline and
email outcomes and identical upload logs: the secret is never compared
or validated anywhere in the invocation. -/
theorem claim_C9 (env : Env) (br : Request) (s : String) :
    BenchmarkAndEmail env { br with Secret := s } = BenchmarkAndEmail env br ∧
    Benchmark env { br with Secret := s } = Benchmark env br :=
  ⟨rfl, rfl⟩

/-- Claim C10: any error from the existence check of the latest key
routes the invocation to the first time branch, which writes the latest
key and the timestamped key with the new measurements, no comparison
performed and no failure surfaced, so the stored baseline is silently
replaced by the new content. -/
theorem claim_C10 (env : Env) (br : Request) (afterBlob : String)
    (store : String → Option String)
    (h1 : env.objectRes = ObjectRes.errRes)
    (h4 : ∀ d, (env.uploadRes d).isSome)
    (hts : env.nowUniq ≠ ("latest")) :
    (∃ r : Result, (uploadToGCS env br afterBlob).1 = Except.ok r ∧
      r.Benchmarks = afterBlob) ∧
    (uploadToGCS env br afterBlob).2 =
      [ uploadDef br ("latest") afterBlob,
        uploadDef br env.nowUniq afterBlob ] ∧
    applyWrites store (uploadToGCS env br afterBlob).2
      (inBenchmarksDir br.GitRepoURL ("latest")) = some afterBlob := by
  obtain ⟨co, nu, obj, dl, tab, up, ft, fh, re, se⟩ := env
  simp only at h1 h4 hts ⊢
  subst h1
  obtain ⟨urls, hub⟩ := uploadAll_success up (uploadDef br) h4
    [(("latest"), afterBlob), (nu, afterBlob)]
  simp only [uploadToGCS]
  rw [hub]
  have hkey : inBenchmarksDir br.GitRepoURL ("latest") ≠
      inBenchmarksDir br.GitRepoURL nu := by
    intro hk
    simp only [inBenchmarksDir] at hk
    exact hts (string_append_left_cancel _ _ _ hk).symm
  refine ⟨⟨_, rfl, rfl⟩, rfl, ?_⟩
  simp [applyWrites, uploadDef, hkey]

/-- Witness for claim C10 at a concrete environment whose existence
check fails, starting from an empty store. -/
theorem claim_C10_witness :
    (∃ r : Result, (uploadToGCS envC10 brW ("blob10")).1 = Except.ok r ∧
      r.Benchmarks = ("blob10")) ∧
    (uploadToGCS envC10 brW ("blob10")).2 =
      [ uploadDef brW ("latest") ("blob10"),
        uploadDef brW envC10.nowUniq ("blob10") ] ∧
    applyWrites (fun _ => none) (uploadToGCS envC10 brW ("blob10")).2
      (inBenchmarksDir brW.GitRepoURL ("latest")) = some ("blob10") :=
  claim_C10 envC10 brW ("blob10") (fun _ => none) rfl (fun _ => rfl) (by decide)

end Bencher
